import Mathlib

/-
Verification of the write-queue / read-after-write-barrier / data-cache
subsystem of the agent-gmx repository, together with the action handlers of
src/gmx-actions.ts that use it.

The repository imports two modules, transaction-queue.ts and gmx-cache.ts,
whose sources are not part of the provided tree; their behaviour is modelled
from the specification (sections 4.1, 4.2 and 4.3 of spec.md) and every
definition built that way carries a doc comment starting with the words
Modelled from the spec.  The twenty action handlers of src/gmx-actions.ts are
embedded directly from that source file.
-/

set_option maxHeartbeats 1000000

namespace TQ

/-- Modelled from the spec: the module transaction-queue.ts (write transaction
queue and read-after-write barrier) is imported by src/gmx-actions.ts but its
source is not in the provided tree.  Following spec sections 3, 4.1 and 4.2,
a queue state holds: the next write sequence number to assign; the FIFO of
enqueued, not yet started write sequence numbers; the sequence numbers whose
asynchronous task is currently in flight (a list, so that the single-task
property is provable rather than assumed); the log of writes in the order the
worker started them; the settlement log pairing each settled write with its
outcome (true = resolved, false = rejected), in settlement order; and the
pending read-after-write requests as pairs of barrier token and started flag.
The barrier token recorded at call time is the next write sequence number,
so the writes enqueued strictly before the call are exactly those with a
sequence number below the token. -/
structure St where
  nextSeq : Nat
  queue : List Nat
  running : List Nat
  startLog : List Nat
  settled : List (Nat × Bool)
  reads : List (Nat × Bool)
deriving Repr, DecidableEq

/-- Sequence numbers of the settled writes, in settlement order. -/
def settledSeqs (s : St) : List Nat := s.settled.map Prod.fst

/-- The empty queue state at process start. -/
def initSt : St := ⟨0, [], [], [], [], []⟩

/-- Modelled from the spec: one transition of the queue subsystem.  enqueue
appends a new write to the FIFO and bumps the sequence counter (spec 4.1,
callable concurrently by independent callers in any interleaving).  start is
the single worker picking up the head of the FIFO, allowed only when no task
is in flight (spec 4.1: the worker awaits the current operation to full
completion before starting the next).  settle records the in-flight task
finishing with either outcome.  callRead registers a read-after-write request,
capturing the barrier token at call time (spec 4.2).  startRead lets a pending
read begin once every write below its token has settled; the guard mentions
only writes below the token, so writes enqueued after the call never block
it. -/
inductive Step : St → St → Prop
  | enqueue (s : St) :
      Step s { s with nextSeq := s.nextSeq + 1, queue := s.queue ++ [s.nextSeq] }
  | start (s : St) (w : Nat) (rest : List Nat)
      (hq : s.queue = w :: rest) (hr : s.running = []) :
      Step s { s with queue := rest, running := [w], startLog := s.startLog ++ [w] }
  | settle (s : St) (w : Nat) (ok : Bool) (hr : s.running = [w]) :
      Step s { s with running := [], settled := s.settled ++ [(w, ok)] }
  | callRead (s : St) :
      Step s { s with reads := s.reads ++ [(s.nextSeq, false)] }
  | startRead (s : St) (i : Nat) (tok : Nat)
      (hi : s.reads[i]? = some (tok, false))
      (hbar : ∀ w, w < tok → w ∈ settledSeqs s) :
      Step s { s with reads := s.reads.set i (tok, true) }

/-- States reachable from the initial state by queue transitions. -/
inductive Reach : St → Prop
  | init : Reach initSt
  | step {s t : St} : Reach s → Step s t → Reach t

/-- Core inductive invariant of the queue: at most one task in flight, the
start log followed by the FIFO lists every assigned sequence number in order,
and the settlement log followed by the in-flight task equals the start log. -/
theorem tq_inv (s : St) (h : Reach s) :
    s.running.length ≤ 1 ∧
    s.startLog ++ s.queue = List.range s.nextSeq ∧
    settledSeqs s ++ s.running = s.startLog := by
  induction h with
  | init => simp [initSt, settledSeqs]
  | step hr hst ih =>
    obtain ⟨ih1, ih2, ih3⟩ := ih
    cases hst with
    | enqueue =>
        refine ⟨ih1, ?_, ih3⟩
        simp only [List.range_succ, ← List.append_assoc, ih2]
    | start w rest hq hr2 =>
        refine ⟨by simp, ?_, ?_⟩
        · rw [List.append_assoc]
          simpa [hq] using ih2
        · rw [hr2, List.append_nil] at ih3
          simpa [settledSeqs] using congrArg (fun l => l ++ [w]) ih3
    | settle w ok hr2 =>
        refine ⟨by simp, ih2, ?_⟩
        rw [hr2] at ih3
        simpa [settledSeqs] using ih3
    | callRead => exact ⟨ih1, ih2, ih3⟩
    | startRead i tok hi hbar => exact ⟨ih1, ih2, ih3⟩

/-- A left factor of a range is the range of its own length. -/
theorem range_factor (a b : List Nat) (n : Nat) (h : a ++ b = List.range n) :
    a = List.range a.length := by
  have h1 : a = (a ++ b).take a.length := (List.take_left a b).symm
  rw [h, List.take_range] at h1
  have h2 : a.length ≤ n := by
    have h3 := congrArg List.length h
    simp at h3
    omega
  rwa [min_eq_left h2] at h1

/-- An invariant that is preserved: reads that have started saw all writes
below their token settle. -/
theorem reads_inv (s : St) (h : Reach s) :
    ∀ p ∈ s.reads, p.2 = true → ∀ w, w < p.1 → w ∈ settledSeqs s := by
  induction h with
  | init => simp [initSt]
  | step hr hst ih =>
    cases hst with
    | enqueue => exact ih
    | start w rest hq hr2 => exact ih
    | settle w ok hr2 =>
        intro p hp hpt wq hw
        have hmem := ih p hp hpt wq hw
        simp only [settledSeqs, List.map_append] at *
        exact List.mem_append_left _ hmem
    | callRead =>
        intro p hp hpt wq hw
        rcases List.mem_append.mp hp with h1 | h1
        · exact ih p h1 hpt wq hw
        · simp at h1
          rw [h1] at hpt
          simp at hpt
    | startRead i tok hi hbar =>
        intro p hp hpt wq hw
        rcases List.mem_or_eq_of_mem_set hp with h1 | h1
        · exact ih p h1 hpt wq hw
        · subst h1
          exact hbar wq hw

/-- C2: for every set of write operations submitted to the queue, in any
interleaving of concurrent enqueues, the single worker executes them strictly
one at a time in submission (FIFO) order: in every reachable state at most one
task is in flight, the start order is exactly the sequence-number (submission)
order, the settlement order is the same order, and every started write except
possibly the single in-flight one has fully settled before the next one
started. -/
theorem C2_write_queue_serializes_fifo (s : St) (h : Reach s) :
    s.running.length ≤ 1 ∧
    s.startLog = List.range s.startLog.length ∧
    settledSeqs s = List.range (settledSeqs s).length ∧
    settledSeqs s ++ s.running = s.startLog := by
  obtain ⟨h1, h2, h3⟩ := tq_inv s h
  have hs : s.startLog = List.range s.startLog.length := range_factor _ _ _ h2
  have hset : settledSeqs s = List.range (settledSeqs s).length := by
    apply range_factor (settledSeqs s) s.running s.startLog.length
    rw [h3]
    exact hs
  exact ⟨h1, hs, hset, h3⟩

/-- A demonstration state: two writes enqueued, the first settled, the second
in flight. -/
def tqDemo : St := ⟨2, [], [1], [0, 1], [(0, true)], []⟩

/-- Witness for C2 at a concrete reachable state: after enqueuing writes 0 and
1, starting and settling write 0 and starting write 1, the settlement log
followed by the in-flight write equals the start log, which is the submission
order. -/
theorem C2_write_queue_serializes_fifo_witness :
    settledSeqs tqDemo ++ tqDemo.running = tqDemo.startLog ∧
    tqDemo.startLog = List.range tqDemo.startLog.length :=
  ⟨(C2_write_queue_serializes_fifo tqDemo
      (Reach.step (Reach.step (Reach.step (Reach.step (Reach.step Reach.init
        (Step.enqueue _)) (Step.enqueue _)) (Step.start _ 0 [1] rfl rfl))
        (Step.settle _ 0 true rfl)) (Step.start _ 1 [] rfl rfl))).2.2.2,
   (C2_write_queue_serializes_fifo tqDemo
      (Reach.step (Reach.step (Reach.step (Reach.step (Reach.step Reach.init
        (Step.enqueue _)) (Step.enqueue _)) (Step.start _ 0 [1] rfl rfl))
        (Step.settle _ 0 true rfl)) (Step.start _ 1 [] rfl rfl))).2.1⟩

/-- C3: a read-after-write request begins only after every write enqueued
strictly before the call has settled, and writes enqueued after the call never
delay it.  First conjunct: in every reachable state, every started read has
every write below its barrier token settled; in particular a read issued
immediately after awaiting a write W carries a token above W, so W and all
writes enqueued before W settled before the read began.  Second conjunct: the
moment every write below the token has settled, the start transition for the
read is enabled, whatever later writes sit in the FIFO or in flight. -/
theorem C3_read_after_write_barrier (s : St) (h : Reach s) :
    (∀ p ∈ s.reads, p.2 = true → ∀ w, w < p.1 → w ∈ settledSeqs s) ∧
    (∀ i tok, s.reads[i]? = some (tok, false) →
      (∀ w, w < tok → w ∈ settledSeqs s) →
      Step s { s with reads := s.reads.set i (tok, true) }) :=
  ⟨reads_inv s h, fun i tok hi hbar => Step.startRead s i tok hi hbar⟩

/-- A demonstration state: one write enqueued and settled, one read that was
issued after the write and has started. -/
def tqDemo2 : St := ⟨1, [], [], [0], [(0, true)], [(1, true)]⟩

/-- Witness for C3 at a concrete reachable state: write 0 was enqueued, a read
with barrier token 1 was requested, write 0 started and settled, and the read
then started; the theorem applied there shows write 0 is settled. -/
theorem C3_read_after_write_barrier_witness : 0 ∈ settledSeqs tqDemo2 :=
  (C3_read_after_write_barrier tqDemo2
      (Reach.step (Reach.step (Reach.step (Reach.step (Reach.step Reach.init
        (Step.enqueue _)) (Step.callRead _)) (Step.start _ 0 [] rfl rfl))
        (Step.settle _ 0 true rfl))
        (Step.startRead _ 0 1 rfl (by decide)))).1
    (1, true) (by decide) rfl 0 (by decide)

end TQ

namespace DC

/-- Modelled from the spec: one cached read result of the data cache of
gmx-cache.ts, whose source is not in the provided tree; following spec
section 3, an entry holds the value, the computed-at timestamp and the
generation counter it was stored under. -/
structure Entry (α : Type) where
  value : α
  computedAt : Nat
  gen : Nat
deriving Repr, DecidableEq

/-- Modelled from the spec: the per-key state of the data cache of
gmx-cache.ts (spec section 4.3).  entry is the stored result, if any; curGen
is the generation counter for the key, bumped by invalidation; inflight is
the generation tag the pending computation was started under, if a compute is
under way; waiters are the callers awaiting the shared in-flight promise;
computeCount counts the upstream compute invocations; results records, in
order, which caller received which value.  Per-key states are independent, so
a single key is modelled. -/
structure CSt (α : Type) where
  entry : Option (Entry α)
  curGen : Nat
  inflight : Option Nat
  waiters : List Nat
  computeCount : Nat
  results : List (Nat × α)
deriving Repr, DecidableEq

/-- The empty cache state for a key. -/
def initCache {α : Type} : CSt α := ⟨none, 0, none, [], 0, []⟩

/-- Modelled from the spec: freshness of the stored entry at a given instant,
spec section 3: a value is fresh iff now minus computedAt is below the TTL and
it has not been superseded by an invalidation issued after it was stored,
which the generation check captures. -/
def isFreshB {α : Type} (s : CSt α) (now ttl : Nat) : Bool :=
  match s.entry with
  | some e => decide (now - e.computedAt < ttl) && decide (e.gen = s.curGen)
  | none => false

/-- Modelled from the spec: the non-fresh path of getOrCompute, spec section
4.3.  If a compute for the key is already in flight the caller awaits that
same shared promise; otherwise a new compute is invoked, tagged with the
current generation counter of the key. -/
def joinOrStart {α : Type} (s : CSt α) (cid : Nat) : CSt α :=
  match s.inflight with
  | some _ => { s with waiters := s.waiters ++ [cid] }
  | none => { s with inflight := some s.curGen, waiters := s.waiters ++ [cid],
                     computeCount := s.computeCount + 1 }

/-- Modelled from the spec: getOrCompute, spec section 4.3.  If a fresh,
non-invalidated entry exists for the key it is returned at once without
invoking compute; otherwise the call joins the in-flight compute or starts a
new one. -/
def getOrCompute {α : Type} (s : CSt α) (cid now ttl : Nat) : CSt α :=
  match s.entry with
  | some e =>
      if isFreshB s now ttl then { s with results := s.results ++ [(cid, e.value)] }
      else joinOrStart s cid
  | none => joinOrStart s cid

/-- Modelled from the spec: successful settlement of the in-flight compute at
instant t with value v, spec section 4.3.  Every waiter of the shared promise
receives v; the result is stored with a fresh timestamp only if no
invalidation for the key occurred after the compute started, which the
generation check detects; a stale-generation result is discarded and the
entry left as it was. -/
def complete {α : Type} (s : CSt α) (v : α) (t : Nat) : CSt α :=
  match s.inflight with
  | none => s
  | some g =>
      { s with inflight := none, waiters := [],
               results := s.results ++ s.waiters.map (fun c => (c, v)),
               entry := if g = s.curGen then some ⟨v, t, g⟩ else s.entry }

/-- Modelled from the spec: rejection of the in-flight compute, spec sections
4.3 and 7.  The entry keeps its pre-call state (no negative caching) and the
in-flight slot is cleared, so the next call retries; the rejection reaches
only the waiters of this promise, whose delivery of errors is not tracked. -/
def failCompute {α : Type} (s : CSt α) : CSt α :=
  match s.inflight with
  | none => s
  | some _ => { s with inflight := none, waiters := [] }

/-- Modelled from the spec: invalidate for the key, spec section 4.3: the
generation counter is incremented, which immediately marks the stored entry
stale and condemns any in-flight compute tagged with the prior generation. -/
def invalidate {α : Type} (s : CSt α) : CSt α := { s with curGen := s.curGen + 1 }

/-- A sequence of getOrCompute calls by the listed callers, all at the same
instant. -/
def callsFold {α : Type} (s : CSt α) (cs : List Nat) (now ttl : Nat) : CSt α :=
  cs.foldl (fun a c => getOrCompute a c now ttl) s

/-- With no stored entry and no in-flight compute, a call starts a compute
tagged with the current generation. -/
theorem getOrCompute_start {α : Type} (s : CSt α) (cid now ttl : Nat)
    (he : s.entry = none) (hi : s.inflight = none) :
    getOrCompute s cid now ttl =
      { s with inflight := some s.curGen, waiters := s.waiters ++ [cid],
               computeCount := s.computeCount + 1 } := by
  obtain ⟨e0, cg, fl, wl, cc, res⟩ := s
  dsimp only at he hi
  subst he
  subst hi
  rfl

/-- With a stale or absent entry and a compute in flight, a call joins the
shared promise and does not invoke compute. -/
theorem getOrCompute_join {α : Type} (s : CSt α) (cid now ttl : Nat) (g : Nat)
    (hf : isFreshB s now ttl = false) (hi : s.inflight = some g) :
    getOrCompute s cid now ttl = { s with waiters := s.waiters ++ [cid] } := by
  obtain ⟨e0, cg, fl, wl, cc, res⟩ := s
  dsimp only at hi
  subst hi
  cases e0 with
  | none => rfl
  | some e =>
      simp only [getOrCompute, hf, joinOrStart]
      simp

/-- With a stale entry and no compute in flight, a call starts a fresh
compute. -/
theorem getOrCompute_recompute {α : Type} (s : CSt α) (cid now ttl : Nat)
    (hf : isFreshB s now ttl = false) (hi : s.inflight = none) :
    getOrCompute s cid now ttl =
      { s with inflight := some s.curGen, waiters := s.waiters ++ [cid],
               computeCount := s.computeCount + 1 } := by
  obtain ⟨e0, cg, fl, wl, cc, res⟩ := s
  dsimp only at hi
  subst hi
  cases e0 with
  | none => rfl
  | some e =>
      simp only [getOrCompute, hf, joinOrStart]
      simp

/-- While a compute is in flight for an uncached key, every further call only
joins the waiter list; nothing else changes. -/
theorem callsFold_joins {α : Type} (cs : List Nat) (s : CSt α) (now ttl : Nat)
    (he : s.entry = none) (hi : s.inflight = some s.curGen) :
    callsFold s cs now ttl = { s with waiters := s.waiters ++ cs } := by
  induction cs generalizing s with
  | nil => simp [callsFold]
  | cons c cs ih =>
      have hf : isFreshB s now ttl = false := by simp [isFreshB, he]
      have h1 : getOrCompute s c now ttl = { s with waiters := s.waiters ++ [c] } :=
        getOrCompute_join s c now ttl s.curGen hf hi
      have h2 : callsFold s (c :: cs) now ttl =
          callsFold (getOrCompute s c now ttl) cs now ttl := rfl
      rw [h2, h1, ih { s with waiters := s.waiters ++ [c] } he hi]
      simp

/-- C5: any number of getOrCompute calls issued for the same uncached key
while no result has yet arrived invoke the underlying compute exactly once;
they all await the one shared in-flight promise, and when it resolves every
caller receives the identical resolved value, which is also stored. -/
theorem C5_single_flight {α : Type} (cs : List Nat) (now ttl : Nat) (v : α)
    (t : Nat) (hcs : cs ≠ []) :
    (callsFold (@initCache α) cs now ttl).computeCount = 1 ∧
    (complete (callsFold (@initCache α) cs now ttl) v t).results =
      cs.map (fun c => (c, v)) ∧
    (complete (callsFold (@initCache α) cs now ttl) v t).entry =
      some ⟨v, t, 0⟩ := by
  cases cs with
  | nil => exact absurd rfl hcs
  | cons c cs =>
      have h1 : callsFold (@initCache α) (c :: cs) now ttl =
          (⟨none, 0, some 0, c :: cs, 1, []⟩ : CSt α) := by
        have h2 : callsFold (@initCache α) (c :: cs) now ttl =
            callsFold (getOrCompute (@initCache α) c now ttl) cs now ttl := rfl
        have h3 : getOrCompute (@initCache α) c now ttl =
            (⟨none, 0, some 0, [c], 1, []⟩ : CSt α) :=
          getOrCompute_start (@initCache α) c now ttl rfl rfl
        rw [h2, h3,
          callsFold_joins cs (⟨none, 0, some 0, [c], 1, []⟩ : CSt α) now ttl rfl rfl]
        rfl
      rw [h1]
      simp [complete]

/-- Witness for C5: three callers hit the empty cache at the same instant;
the compute runs once and all three receive the value 42, which is stored. -/
theorem C5_single_flight_witness :
    (callsFold (@initCache Nat) [1, 2, 3] 0 5).computeCount = 1 ∧
    (complete (callsFold (@initCache Nat) [1, 2, 3] 0 5) 42 9).results =
      [(1, 42), (2, 42), (3, 42)] ∧
    (complete (callsFold (@initCache Nat) [1, 2, 3] 0 5) 42 9).entry =
      some ⟨42, 9, 0⟩ :=
  C5_single_flight [1, 2, 3] 0 5 42 9 (by decide)

/-- With a stored fresh entry, a call returns the cached value at once and
changes nothing else. -/
theorem getOrCompute_hit {α : Type} (s : CSt α) (cid now ttl : Nat)
    (e : Entry α) (he : s.entry = some e) (hf : isFreshB s now ttl = true) :
    getOrCompute s cid now ttl =
      { s with results := s.results ++ [(cid, e.value)] } := by
  obtain ⟨e0, cg, fl, wl, cc, res⟩ := s
  dsimp only at he
  subst he
  simp [getOrCompute, hf]

/-- Invalidation immediately marks the stored entry stale: the bumped
generation counter can no longer match the generation any stored entry
carries. -/
theorem invalidate_stales {α : Type} (s : CSt α) (now ttl : Nat)
    (hg : ∀ e, s.entry = some e → e.gen ≤ s.curGen) :
    isFreshB (invalidate s) now ttl = false := by
  cases he : s.entry with
  | none => simp [isFreshB, invalidate, he]
  | some e =>
      have hle := hg e he
      simp [isFreshB, invalidate, he]
      omega

/-- C7: for a key with a stored entry, getOrCompute returns the cached value
without invoking compute exactly when the entry is fresh, that is, when now
minus computedAt is below the TTL and the generation matches (no invalidation
intervened); once the entry is stale the next idle getOrCompute performs
exactly one recompute and, when it settles, the caller receives the new value
and the new value is stored with a fresh timestamp. -/
theorem C7_ttl_freshness {α : Type} (s : CSt α) (cid now ttl : Nat)
    (e : Entry α) (v : α) (t2 : Nat) (he : s.entry = some e) :
    (((getOrCompute s cid now ttl).results = s.results ++ [(cid, e.value)] ∧
      (getOrCompute s cid now ttl).computeCount = s.computeCount) ↔
      (now - e.computedAt < ttl ∧ e.gen = s.curGen)) ∧
    (s.inflight = none → s.waiters = [] → isFreshB s now ttl = false →
      (getOrCompute s cid now ttl).computeCount = s.computeCount + 1 ∧
      (complete (getOrCompute s cid now ttl) v t2).results =
        s.results ++ [(cid, v)] ∧
      (complete (getOrCompute s cid now ttl) v t2).entry =
        some ⟨v, t2, s.curGen⟩) := by
  have hiff : isFreshB s now ttl = true ↔
      (now - e.computedAt < ttl ∧ e.gen = s.curGen) := by
    simp [isFreshB, he]
  refine ⟨⟨?_, ?_⟩, ?_⟩
  · intro hres
    cases hb : isFreshB s now ttl with
    | true => exact hiff.mp hb
    | false =>
        exfalso
        cases hfl : s.inflight with
        | some g =>
            have h1 := getOrCompute_join s cid now ttl g hb hfl
            rw [h1] at hres
            simp at hres
        | none =>
            have h1 := getOrCompute_recompute s cid now ttl hb hfl
            rw [h1] at hres
            obtain ⟨_, h2⟩ := hres
            simp at h2
  · intro hfresh
    rw [getOrCompute_hit s cid now ttl e he (hiff.mpr hfresh)]
    exact ⟨rfl, rfl⟩
  · intro hfl hw hb
    rw [getOrCompute_recompute s cid now ttl hb hfl]
    refine ⟨rfl, ?_, ?_⟩
    · simp [complete, hw]
    · simp [complete]

/-- The demonstration cache state for C7: value 11 computed at instant 0
under generation 0, no compute in flight. -/
def c7St : CSt Nat := ⟨some ⟨11, 0, 0⟩, 0, none, [], 0, []⟩

/-- Witness for C7, the scenario of the spec with TTL 5000: the value 11
computed at instant 0 is served from the cache at instant 4000 with no
recompute; at instant 6000 the TTL has elapsed, so exactly one recompute runs
and its value 22 is delivered to the caller and stored. -/
theorem C7_ttl_freshness_witness :
    ((getOrCompute c7St 9 4000 5000).results = [(9, 11)] ∧
      (getOrCompute c7St 9 4000 5000).computeCount = 0) ∧
    ((getOrCompute c7St 9 6000 5000).computeCount = 1 ∧
      (complete (getOrCompute c7St 9 6000 5000) 22 6100).results = [(9, 22)] ∧
      (complete (getOrCompute c7St 9 6000 5000) 22 6100).entry =
        some ⟨22, 6100, 0⟩) :=
  ⟨(C7_ttl_freshness c7St 9 4000 5000 ⟨11, 0, 0⟩ 22 6100 rfl).1.mpr
      (by decide),
   (C7_ttl_freshness c7St 9 6000 5000 ⟨11, 0, 0⟩ 22 6100 rfl).2 rfl rfl
      (by decide)⟩

/-- The run refuting C6 as stated: caller 1 starts a compute at instant 1900
on the empty cache. -/
def cSt1 : CSt Nat := getOrCompute (@initCache Nat) 1 1900 5000

/-- Invalidation fires at instant 2000 while that compute is in flight. -/
def cSt2 : CSt Nat := invalidate cSt1

/-- Caller 2 issues getOrCompute at instant 2100, after the invalidation,
while the prior-generation compute is still in flight. -/
def cSt3 : CSt Nat := getOrCompute cSt2 2 2100 5000

/-- The prior-generation compute resolves with value 111 at instant 2500. -/
def cSt4 : CSt Nat := complete cSt3 111 2500

/-- Counterexample to C6 as stated: after the invalidation at generation 1,
the next getOrCompute (caller 2, instant 2100) does not invoke a fresh
compute — the compute count stays at 1, because the call joins the shared
promise of the compute still in flight under the prior generation — and when
that stale-generation compute resolves, its value 111 is delivered to caller
2, a getOrCompute issued after the invalidation.  The stale result is indeed
discarded from storage (the entry stays empty), but the claims that the next
getOrCompute always recomputes and that a stale result is never returned to a
later getOrCompute both fail on this run. -/
theorem C6_stale_inflight_counterexample :
    cSt2.curGen = 1 ∧ cSt2.inflight = some 0 ∧
    cSt3.computeCount = 1 ∧
    cSt4.results = [(1, 111), (2, 111)] ∧ cSt4.entry = none := by
  decide

/-- C6 amended: invalidate increments the generation counter and immediately
marks the stored entry stale; a getOrCompute issued when no compute is in
flight then always invokes a fresh compute; a compute result whose generation
is stale at completion is discarded — never stored — leaving the entry
stale, and the first getOrCompute after that completion invokes a brand-new
compute; a getOrCompute issued while the prior-generation compute is still in
flight, however, joins that shared in-flight promise (single-flight) rather
than starting a fresh compute, as the counterexample run shows. -/
theorem C6_invalidation_generation {α : Type} (s : CSt α) (cid now ttl g : Nat)
    (v : α) (t : Nat) :
    ((invalidate s).curGen = s.curGen + 1 ∧ (invalidate s).entry = s.entry ∧
      (invalidate s).inflight = s.inflight) ∧
    ((∀ e, s.entry = some e → e.gen ≤ s.curGen) →
      isFreshB (invalidate s) now ttl = false) ∧
    (s.inflight = none → (∀ e, s.entry = some e → e.gen ≤ s.curGen) →
      (getOrCompute (invalidate s) cid now ttl).computeCount =
        s.computeCount + 1) ∧
    (s.inflight = some g → g ≠ s.curGen →
      (complete s v t).entry = s.entry ∧ (complete s v t).inflight = none) ∧
    (s.inflight = some g → g ≠ s.curGen → isFreshB s now ttl = false →
      (getOrCompute (complete s v t) cid now ttl).computeCount =
        s.computeCount + 1) := by
  refine ⟨⟨rfl, rfl, rfl⟩, ?_, ?_, ?_, ?_⟩
  · exact invalidate_stales s now ttl
  · intro hif hg
    rw [getOrCompute_recompute (invalidate s) cid now ttl
      (invalidate_stales s now ttl hg) hif]
    rfl
  · intro hif hne
    obtain ⟨e0, cg, fl, wl, cc, res⟩ := s
    dsimp only at hif hne
    subst hif
    simp [complete, hne]
  · intro hif hne hb
    obtain ⟨e0, cg, fl, wl, cc, res⟩ := s
    dsimp only at hif hne hb
    subst hif
    have hc : complete (⟨e0, cg, some g, wl, cc, res⟩ : CSt α) v t =
        (⟨e0, cg, none, [], cc, res ++ wl.map (fun c => (c, v))⟩ : CSt α) := by
      simp [complete, hne]
    rw [hc]
    have hb2 : isFreshB
        (⟨e0, cg, none, [], cc, res ++ wl.map (fun c => (c, v))⟩ : CSt α)
        now ttl = false := hb
    rw [getOrCompute_recompute _ cid now ttl hb2 rfl]

/-- A cache state with a fresh entry and no compute in flight, for the C6
witness. -/
def c6StA : CSt Nat := ⟨some ⟨7, 0, 0⟩, 0, none, [], 0, []⟩

/-- A cache state whose in-flight compute carries a stale generation (the key
was invalidated after it started), for the C6 witness. -/
def c6StB : CSt Nat := ⟨none, 1, some 0, [4], 3, []⟩

/-- Witness for the amended C6: on an idle state with a fresh entry,
invalidation bumps the generation, the entry becomes stale at once and a
getOrCompute then invokes a fresh compute; on a state whose in-flight compute
carries a stale generation, completion discards the result, stores nothing,
and the first getOrCompute after it invokes a brand-new compute. -/
theorem C6_invalidation_generation_witness :
    (invalidate c6StA).curGen = 1 ∧
    isFreshB (invalidate c6StA) 10 5000 = false ∧
    (getOrCompute (invalidate c6StA) 9 10 5000).computeCount = 1 ∧
    (complete c6StB 55 12).entry = none ∧
    (complete c6StB 55 12).inflight = none ∧
    (getOrCompute (complete c6StB 55 12) 9 10 5000).computeCount = 4 :=
  ⟨(C6_invalidation_generation c6StA 9 10 5000 0 55 12).1.1,
   (C6_invalidation_generation c6StA 9 10 5000 0 55 12).2.1
      (fun e h => by cases h; decide),
   (C6_invalidation_generation c6StA 9 10 5000 0 55 12).2.2.1 rfl
      (fun e h => by cases h; decide),
   ((C6_invalidation_generation c6StB 9 10 5000 0 55 12).2.2.2.1 rfl
      (by decide)).1,
   ((C6_invalidation_generation c6StB 9 10 5000 0 55 12).2.2.2.1 rfl
      (by decide)).2,
   (C6_invalidation_generation c6StB 9 10 5000 0 55 12).2.2.2.2 rfl
      (by decide) rfl⟩

end DC

/-- C8: failures never cascade.  Queue half: when the in-flight write rejects,
the settle transition records the failure for that operation alone — the
FIFO, the settlement entries of every sibling and the pending reads are left
exactly as they were — and the worker is immediately able to start the next
queued write.  Cache half: when a compute rejects, the stored entry keeps its
pre-call state (no negative caching), the in-flight slot is cleared, and the
next getOrCompute for the key invokes the compute again unconditionally. -/
theorem C8_failure_isolation (s : TQ.St) (w : Nat) (cs : DC.CSt Nat)
    (g cid now ttl : Nat) (hw : s.running = [w]) (hin : cs.inflight = some g)
    (hst : DC.isFreshB cs now ttl = false) :
    TQ.Step s { s with running := [], settled := s.settled ++ [(w, false)] } ∧
    (∀ w2 rest, s.queue = w2 :: rest →
      TQ.Step { s with running := [], settled := s.settled ++ [(w, false)] }
        { s with running := [w2], queue := rest,
                 startLog := s.startLog ++ [w2],
                 settled := s.settled ++ [(w, false)] }) ∧
    (DC.failCompute cs).entry = cs.entry ∧
    (DC.failCompute cs).inflight = none ∧
    (DC.getOrCompute (DC.failCompute cs) cid now ttl).computeCount =
      cs.computeCount + 1 := by
  obtain ⟨e0, cg, fl, wl, cc, res⟩ := cs
  dsimp only at hin hst
  subst hin
  refine ⟨TQ.Step.settle s w false hw, ?_, rfl, rfl, ?_⟩
  · intro w2 rest hq
    exact TQ.Step.start _ w2 rest hq rfl
  · have hb2 : DC.isFreshB
        (DC.failCompute (⟨e0, cg, some g, wl, cc, res⟩ : DC.CSt Nat))
        now ttl = false := hst
    rw [DC.getOrCompute_recompute _ cid now ttl hb2 rfl]
    rfl

/-- The queue state for the C8 witness: writes 0 and 1 enqueued, write 0
settled, write 1 in flight, write 2 waiting in the FIFO. -/
def tq8 : TQ.St := ⟨3, [2], [1], [0, 1], [(0, true)], []⟩

/-- The cache state for the C8 witness: a compute is in flight for an
uncached key with one waiter. -/
def cs8 : DC.CSt Nat := ⟨none, 0, some 0, [5], 2, []⟩

/-- Witness for C8 at concrete states: the failing settlement of write 1 is
recorded without touching the sibling entry of write 0 or the FIFO, the
worker can start write 2 at once, and the failed compute leaves the entry
absent while the next getOrCompute recomputes. -/
theorem C8_failure_isolation_witness :
    TQ.Step tq8 ⟨3, [2], [], [0, 1], [(0, true), (1, false)], []⟩ ∧
    TQ.Step (⟨3, [2], [], [0, 1], [(0, true), (1, false)], []⟩ : TQ.St)
      ⟨3, [], [2], [0, 1, 2], [(0, true), (1, false)], []⟩ ∧
    (DC.failCompute cs8).entry = none ∧
    (DC.failCompute cs8).inflight = none ∧
    (DC.getOrCompute (DC.failCompute cs8) 9 4 7).computeCount = 3 :=
  ⟨(C8_failure_isolation tq8 1 cs8 0 9 4 7 rfl rfl rfl).1,
   (C8_failure_isolation tq8 1 cs8 0 9 4 7 rfl rfl rfl).2.1 2 [] rfl,
   (C8_failure_isolation tq8 1 cs8 0 9 4 7 rfl rfl rfl).2.2.1,
   (C8_failure_isolation tq8 1 cs8 0 9 4 7 rfl rfl rfl).2.2.2.1,
   (C8_failure_isolation tq8 1 cs8 0 9 4 7 rfl rfl rfl).2.2.2.2⟩

namespace GA

/-- The cache invalidation methods the handlers of src/gmx-actions.ts call on
the shared EnhancedDataCache: invalidatePositions (positions tag) and
invalidateTokens (tokens tag). -/
inductive Tag where
  | positions
  | tokens
deriving DecidableEq, Repr

/-- One observable effect of an action handler of src/gmx-actions.ts:
submitting an operation through transactionQueue.enqueueWriteTransaction
(enqueueWrite, with the label passed and the SDK method the enqueued closure
invokes), routing a read through transactionQueue.enqueueReadAfterWrite
(barrierRead, with the label and the query function the closure invokes),
calling a read or query function directly (query), calling an SDK method
directly from the handler without the queue (sdkDirect), or invalidating a
cache tag. -/
inductive Eff where
  | enqueueWrite (label : String) (inner : String)
  | barrierRead (label : String) (inner : String)
  | query (name : String)
  | sdkDirect (name : String)
  | invalidate (tag : Tag)
deriving DecidableEq, Repr

/-- The result object a handler resolves with: the success flag, the fixed
message field, and the optional error text (present on the failure path of
every catch block in src/gmx-actions.ts). -/
structure HRes where
  success : Bool
  message : String
  error : Option String
deriving DecidableEq, Repr

/-- The environment of one handler invocation: hasCache records whether the
optional gmxDataCache argument of createGmxActions was provided (the agent
entry point always provides it, src/agent-gmx.ts line 786); prelimOk is
whether the reads and validations performed before the mutating or main call
succeed; writeOk is whether the mutating operation (or the main read) itself
resolves; errMsg is the message of the error thrown on the failing path. -/
structure Env where
  hasCache : Bool
  prelimOk : Bool
  writeOk : Bool
  errMsg : String

/-- A handler outcome: the resolved result object plus the trace of effects
the handler performed, in order, before returning. -/
structure Out where
  res : HRes
  trace : List Eff
deriving DecidableEq, Repr

/-- The try/catch wrapper every one of the twenty handlers of
src/gmx-actions.ts places around its whole body: a thrown error resolves the
handler promise with success false, the fixed failure message of the handler and
the error text; it never rejects. -/
def guardBody (failMsg : String) (b : List Eff × Except String HRes) : Out :=
  match b with
  | (tr, Except.ok r) => ⟨r, tr⟩
  | (tr, Except.error e) => ⟨⟨false, failMsg, some e⟩, tr⟩

/-- The invalidation calls a write handler performs, guarded by the presence
of the cache exactly as the source guards them with if gmxDataCache. -/
def invIf (b : Bool) (tags : List Tag) : List Eff :=
  if b then tags.map Eff.invalidate else []

/-- Body of get_btc_eth_markets, src/gmx-actions.ts lines 28-64: call
get_btc_eth_markets_str directly and resolve. -/
def get_btc_eth_markets_body (env : Env) : List Eff × Except String HRes :=
  if env.prelimOk then
    ([Eff.query "get_btc_eth_markets_str"],
      Except.ok ⟨true, "Successfully retrieved BTC/ETH markets data", none⟩)
  else ([Eff.query "get_btc_eth_markets_str"], Except.error env.errMsg)

/-- Body of get_daily_volumes, src/gmx-actions.ts lines 66-102: call
get_daily_volumes_str directly and resolve. -/
def get_daily_volumes_body (env : Env) : List Eff × Except String HRes :=
  if env.prelimOk then
    ([Eff.query "get_daily_volumes_str"],
      Except.ok ⟨true, "Successfully retrieved BTC/ETH daily volumes", none⟩)
  else ([Eff.query "get_daily_volumes_str"], Except.error env.errMsg)

/-- Body of get_tokens_data, src/gmx-actions.ts lines 104-140: call
get_tokens_data_str directly and resolve. -/
def get_tokens_data_body (env : Env) : List Eff × Except String HRes :=
  if env.prelimOk then
    ([Eff.query "get_tokens_data_str"],
      Except.ok ⟨true, "Successfully retrieved BTC/ETH/USD tokens data", none⟩)
  else ([Eff.query "get_tokens_data_str"], Except.error env.errMsg)

/-- Body of get_portfolio_balance, src/gmx-actions.ts lines 142-181: call
get_portfolio_balance_str directly and resolve. -/
def get_portfolio_balance_body (env : Env) : List Eff × Except String HRes :=
  if env.prelimOk then
    ([Eff.query "get_portfolio_balance_str"],
      Except.ok ⟨true, "Portfolio balance retrieved successfully", none⟩)
  else ([Eff.query "get_portfolio_balance_str"], Except.error env.errMsg)

/-- Body of get_positions, src/gmx-actions.ts lines 183-227: the only read
besides get_orders routed through transactionQueue.enqueueReadAfterWrite,
wrapping get_positions_str. -/
def get_positions_body (env : Env) : List Eff × Except String HRes :=
  if env.prelimOk then
    ([Eff.barrierRead "get_positions" "get_positions_str"],
      Except.ok ⟨true, "Positions retrieved successfully", none⟩)
  else ([Eff.barrierRead "get_positions" "get_positions_str"],
    Except.error env.errMsg)

/-- Body of get_orders, src/gmx-actions.ts lines 229-275: routed through
transactionQueue.enqueueReadAfterWrite, wrapping get_orders_str; the success
message is the formatted orders string itself, represented here by a fixed
placeholder. -/
def get_orders_body (env : Env) : List Eff × Except String HRes :=
  if env.prelimOk then
    ([Eff.barrierRead "get_orders" "get_orders_str"],
      Except.ok ⟨true, "ordersString", none⟩)
  else ([Eff.barrierRead "get_orders" "get_orders_str"],
    Except.error env.errMsg)

/-- Body of get_trading_history, src/gmx-actions.ts lines 277-311: call
get_trading_history_str directly and resolve. -/
def get_trading_history_body (env : Env) : List Eff × Except String HRes :=
  if env.prelimOk then
    ([Eff.query "get_trading_history_str"],
      Except.ok ⟨true, "Successfully retrieved trading history analysis", none⟩)
  else ([Eff.query "get_trading_history_str"], Except.error env.errMsg)

/-- Body of get_synth_btc_predictions, src/gmx-actions.ts lines 318-352: call
get_synth_analysis_str directly for BTC and resolve. -/
def get_synth_btc_predictions_body (env : Env) : List Eff × Except String HRes :=
  if env.prelimOk then
    ([Eff.query "get_synth_analysis_str"],
      Except.ok ⟨true,
        "Retrieved consolidated BTC predictions from top Synth miners", none⟩)
  else ([Eff.query "get_synth_analysis_str"], Except.error env.errMsg)

/-- Body of get_synth_eth_predictions, src/gmx-actions.ts lines 355-389: call
get_synth_analysis_str directly for ETH and resolve. -/
def get_synth_eth_predictions_body (env : Env) : List Eff × Except String HRes :=
  if env.prelimOk then
    ([Eff.query "get_synth_analysis_str"],
      Except.ok ⟨true,
        "Retrieved consolidated ETH predictions from top Synth miners", none⟩)
  else ([Eff.query "get_synth_analysis_str"], Except.error env.errMsg)

/-- Body of get_btc_technical_analysis, src/gmx-actions.ts lines 392-427:
call get_technical_analysis_str directly for BTC and resolve. -/
def get_btc_technical_analysis_body (env : Env) : List Eff × Except String HRes :=
  if env.prelimOk then
    ([Eff.query "get_technical_analysis_str"],
      Except.ok ⟨true, "Successfully retrieved BTC technical indicators", none⟩)
  else ([Eff.query "get_technical_analysis_str"], Except.error env.errMsg)

/-- Body of get_eth_technical_analysis, src/gmx-actions.ts lines 432-467:
call get_technical_analysis_str directly for ETH and resolve. -/
def get_eth_technical_analysis_body (env : Env) : List Eff × Except String HRes :=
  if env.prelimOk then
    ([Eff.query "get_technical_analysis_str"],
      Except.ok ⟨true, "Successfully retrieved ETH technical indicators", none⟩)
  else ([Eff.query "get_technical_analysis_str"], Except.error env.errMsg)

/-- Body of cancel_orders, src/gmx-actions.ts lines 476-540: enqueue the
cancelOrders call on the write queue with no preliminary reads; on success
invalidate positions (if the cache is present) before returning. -/
def cancel_orders_body (env : Env) : List Eff × Except String HRes :=
  if env.writeOk then
    ([Eff.enqueueWrite "cancel_orders" "sdk.orders.cancelOrders"] ++
      invIf env.hasCache [Tag.positions],
      Except.ok ⟨true, "Successfully cancelled order(s)", none⟩)
  else ([Eff.enqueueWrite "cancel_orders" "sdk.orders.cancelOrders"],
    Except.error env.errMsg)

/-- Body of open_long_market, src/gmx-actions.ts lines 543-686: fetch market
data and validate, enqueue the sdk.orders.long call on the write queue, and
on success invalidate positions before returning. -/
def open_long_market_body (env : Env) : List Eff × Except String HRes :=
  if env.prelimOk then
    if env.writeOk then
      ([Eff.query "getMarketsInfo",
        Eff.enqueueWrite "open_long_market" "sdk.orders.long"] ++
        invIf env.hasCache [Tag.positions],
        Except.ok ⟨true, "Successfully opened long market position", none⟩)
    else
      ([Eff.query "getMarketsInfo",
        Eff.enqueueWrite "open_long_market" "sdk.orders.long"],
        Except.error env.errMsg)
  else ([Eff.query "getMarketsInfo"], Except.error env.errMsg)

/-- Body of open_long_limit, src/gmx-actions.ts lines 688-858: same shape as
open_long_market with a limit price. -/
def open_long_limit_body (env : Env) : List Eff × Except String HRes :=
  if env.prelimOk then
    if env.writeOk then
      ([Eff.query "getMarketsInfo",
        Eff.enqueueWrite "open_long_limit" "sdk.orders.long"] ++
        invIf env.hasCache [Tag.positions],
        Except.ok ⟨true, "Successfully placed long limit order", none⟩)
    else
      ([Eff.query "getMarketsInfo",
        Eff.enqueueWrite "open_long_limit" "sdk.orders.long"],
        Except.error env.errMsg)
  else ([Eff.query "getMarketsInfo"], Except.error env.errMsg)

/-- Body of open_short_market, src/gmx-actions.ts lines 860-997: fetch market
data and validate, enqueue the sdk.orders.short call on the write queue, and
on success invalidate positions before returning. -/
def open_short_market_body (env : Env) : List Eff × Except String HRes :=
  if env.prelimOk then
    if env.writeOk then
      ([Eff.query "getMarketsInfo",
        Eff.enqueueWrite "open_short_market" "sdk.orders.short"] ++
        invIf env.hasCache [Tag.positions],
        Except.ok ⟨true, "Successfully opened short market position", none⟩)
    else
      ([Eff.query "getMarketsInfo",
        Eff.enqueueWrite "open_short_market" "sdk.orders.short"],
        Except.error env.errMsg)
  else ([Eff.query "getMarketsInfo"], Except.error env.errMsg)

/-- Body of open_short_limit, src/gmx-actions.ts lines 999-1157: same shape
as open_short_market with a limit price. -/
def open_short_limit_body (env : Env) : List Eff × Except String HRes :=
  if env.prelimOk then
    if env.writeOk then
      ([Eff.query "getMarketsInfo",
        Eff.enqueueWrite "open_short_limit" "sdk.orders.short"] ++
        invIf env.hasCache [Tag.positions],
        Except.ok ⟨true, "Successfully placed short limit order", none⟩)
    else
      ([Eff.query "getMarketsInfo",
        Eff.enqueueWrite "open_short_limit" "sdk.orders.short"],
        Except.error env.errMsg)
  else ([Eff.query "getMarketsInfo"], Except.error env.errMsg)

/-- Body of close_position, src/gmx-actions.ts lines 1160-1392: fetch markets
and positions, then invoke sdk.orders.createDecreaseOrder DIRECTLY from the
handler, with no transactionQueue.enqueueWriteTransaction around it, unlike
every other mutating handler; on success invalidate positions before
returning. -/
def close_position_body (env : Env) : List Eff × Except String HRes :=
  if env.prelimOk then
    if env.writeOk then
      ([Eff.query "getMarketsInfo", Eff.query "getPositions",
        Eff.sdkDirect "sdk.orders.createDecreaseOrder"] ++
        invIf env.hasCache [Tag.positions],
        Except.ok ⟨true, "Successfully fully closed position", none⟩)
    else
      ([Eff.query "getMarketsInfo", Eff.query "getPositions",
        Eff.sdkDirect "sdk.orders.createDecreaseOrder"],
        Except.error env.errMsg)
  else ([Eff.query "getMarketsInfo", Eff.query "getPositions"],
    Except.error env.errMsg)

/-- Body of swap_tokens, src/gmx-actions.ts lines 1397-1584: fetch token data
and validate, enqueue the sdk.orders.swap call on the write queue, and on
success invalidate tokens and positions, in that order, before returning. -/
def swap_tokens_body (env : Env) : List Eff × Except String HRes :=
  if env.prelimOk then
    if env.writeOk then
      ([Eff.query "getTokensData",
        Eff.enqueueWrite "swap_tokens" "sdk.orders.swap"] ++
        invIf env.hasCache [Tag.tokens, Tag.positions],
        Except.ok ⟨true, "Successfully initiated swap", none⟩)
    else
      ([Eff.query "getTokensData",
        Eff.enqueueWrite "swap_tokens" "sdk.orders.swap"],
        Except.error env.errMsg)
  else ([Eff.query "getTokensData"], Except.error env.errMsg)

/-- Body of set_take_profit, src/gmx-actions.ts lines 1588-1810: fetch
markets and positions info, enqueue the sdk.orders.createDecreaseOrder call
(trigger variant) on the write queue, and on success invalidate positions
before returning. -/
def set_take_profit_body (env : Env) : List Eff × Except String HRes :=
  if env.prelimOk then
    if env.writeOk then
      ([Eff.query "getMarketsInfo", Eff.query "getPositionsInfo",
        Eff.enqueueWrite "set_take_profit" "sdk.orders.createDecreaseOrder"] ++
        invIf env.hasCache [Tag.positions],
        Except.ok ⟨true, "Successfully set take profit order", none⟩)
    else
      ([Eff.query "getMarketsInfo", Eff.query "getPositionsInfo",
        Eff.enqueueWrite "set_take_profit" "sdk.orders.createDecreaseOrder"],
        Except.error env.errMsg)
  else ([Eff.query "getMarketsInfo", Eff.query "getPositionsInfo"],
    Except.error env.errMsg)

/-- Body of set_stop_loss, src/gmx-actions.ts lines 1812-2034: same shape as
set_take_profit with the stop-loss trigger variant. -/
def set_stop_loss_body (env : Env) : List Eff × Except String HRes :=
  if env.prelimOk then
    if env.writeOk then
      ([Eff.query "getMarketsInfo", Eff.query "getPositionsInfo",
        Eff.enqueueWrite "set_stop_loss" "sdk.orders.createDecreaseOrder"] ++
        invIf env.hasCache [Tag.positions],
        Except.ok ⟨true, "Successfully set stop loss order", none⟩)
    else
      ([Eff.query "getMarketsInfo", Eff.query "getPositionsInfo",
        Eff.enqueueWrite "set_stop_loss" "sdk.orders.createDecreaseOrder"],
        Except.error env.errMsg)
  else ([Eff.query "getMarketsInfo", Eff.query "getPositionsInfo"],
    Except.error env.errMsg)

end GA

namespace GA

/-- One action returned by createGmxActions: its name, whether it mutates
on-chain state, the fixed message of its catch block, the cache tags it
invalidates on success, and its body. -/
structure ActionD where
  name : String
  isWrite : Bool
  failMsg : String
  invTags : List Tag
  body : Env → List Eff × Except String HRes

/-- Running an action handler: its body inside its try/catch wrapper. -/
def runAction (a : ActionD) (env : Env) : Out := guardBody a.failMsg (a.body env)

/-- Descriptor of get_btc_eth_markets. -/
def get_btc_eth_markets_action : ActionD :=
  ⟨"get_btc_eth_markets", false, "Failed to fetch BTC/ETH markets data", [],
    get_btc_eth_markets_body⟩

/-- Descriptor of get_daily_volumes. -/
def get_daily_volumes_action : ActionD :=
  ⟨"get_daily_volumes", false, "Failed to fetch daily volumes", [],
    get_daily_volumes_body⟩

/-- Descriptor of get_tokens_data. -/
def get_tokens_data_action : ActionD :=
  ⟨"get_tokens_data", false, "Failed to fetch tokens data", [],
    get_tokens_data_body⟩

/-- Descriptor of get_portfolio_balance. -/
def get_portfolio_balance_action : ActionD :=
  ⟨"get_portfolio_balance", false, "Failed to get portfolio balance", [],
    get_portfolio_balance_body⟩

/-- Descriptor of get_positions. -/
def get_positions_action : ActionD :=
  ⟨"get_positions", false, "Failed to get positions", [], get_positions_body⟩

/-- Descriptor of get_orders. -/
def get_orders_action : ActionD :=
  ⟨"get_orders", false, "Failed to fetch orders", [], get_orders_body⟩

/-- Descriptor of get_trading_history. -/
def get_trading_history_action : ActionD :=
  ⟨"get_trading_history", false, "Failed to fetch trading history", [],
    get_trading_history_body⟩

/-- Descriptor of get_synth_btc_predictions. -/
def get_synth_btc_predictions_action : ActionD :=
  ⟨"get_synth_btc_predictions", false,
    "Failed to fetch BTC predictions from Synth", [],
    get_synth_btc_predictions_body⟩

/-- Descriptor of get_synth_eth_predictions. -/
def get_synth_eth_predictions_action : ActionD :=
  ⟨"get_synth_eth_predictions", false,
    "Failed to fetch ETH predictions from Synth", [],
    get_synth_eth_predictions_body⟩

/-- Descriptor of get_btc_technical_analysis. -/
def get_btc_technical_analysis_action : ActionD :=
  ⟨"get_btc_technical_analysis", false,
    "Failed to fetch BTC technical analysis", [],
    get_btc_technical_analysis_body⟩

/-- Descriptor of get_eth_technical_analysis. -/
def get_eth_technical_analysis_action : ActionD :=
  ⟨"get_eth_technical_analysis", false,
    "Failed to fetch ETH technical analysis", [],
    get_eth_technical_analysis_body⟩

/-- Descriptor of cancel_orders. -/
def cancel_orders_action : ActionD :=
  ⟨"cancel_orders", true, "Failed to cancel orders", [Tag.positions],
    cancel_orders_body⟩

/-- Descriptor of open_long_market. -/
def open_long_market_action : ActionD :=
  ⟨"open_long_market", true, "Failed to open long position", [Tag.positions],
    open_long_market_body⟩

/-- Descriptor of open_long_limit. -/
def open_long_limit_action : ActionD :=
  ⟨"open_long_limit", true, "Failed to place long limit order",
    [Tag.positions], open_long_limit_body⟩

/-- Descriptor of open_short_market. -/
def open_short_market_action : ActionD :=
  ⟨"open_short_market", true, "Failed to open short market order",
    [Tag.positions], open_short_market_body⟩

/-- Descriptor of open_short_limit. -/
def open_short_limit_action : ActionD :=
  ⟨"open_short_limit", true, "Failed to place short limit order",
    [Tag.positions], open_short_limit_body⟩

/-- Descriptor of close_position. -/
def close_position_action : ActionD :=
  ⟨"close_position", true, "Failed to close position", [Tag.positions],
    close_position_body⟩

/-- Descriptor of swap_tokens. -/
def swap_tokens_action : ActionD :=
  ⟨"swap_tokens", true, "Failed to execute token swap",
    [Tag.tokens, Tag.positions], swap_tokens_body⟩

/-- Descriptor of set_take_profit. -/
def set_take_profit_action : ActionD :=
  ⟨"set_take_profit", true, "Failed to set take profit order",
    [Tag.positions], set_take_profit_body⟩

/-- Descriptor of set_stop_loss. -/
def set_stop_loss_action : ActionD :=
  ⟨"set_stop_loss", true, "Failed to set stop loss order", [Tag.positions],
    set_stop_loss_body⟩

/-- The twenty actions returned by createGmxActions, in source order
(src/gmx-actions.ts lines 28-2034). -/
def actions : List ActionD :=
  [get_btc_eth_markets_action, get_daily_volumes_action,
   get_tokens_data_action, get_portfolio_balance_action,
   get_positions_action, get_orders_action, get_trading_history_action,
   get_synth_btc_predictions_action, get_synth_eth_predictions_action,
   get_btc_technical_analysis_action, get_eth_technical_analysis_action,
   cancel_orders_action, open_long_market_action, open_long_limit_action,
   open_short_market_action, open_short_limit_action, close_position_action,
   swap_tokens_action, set_take_profit_action, set_stop_loss_action]

/-- Whether a trace routes a read through the read-after-write barrier. -/
def usesBarrier (t : List Eff) : Bool :=
  t.any fun e => match e with
    | Eff.barrierRead _ _ => true
    | _ => false

/-- Whether a trace calls a query function directly, without the barrier. -/
def usesDirectQuery (t : List Eff) : Bool :=
  t.any fun e => match e with
    | Eff.query _ => true
    | _ => false

/-- Whether a trace submits an operation through the write queue. -/
def writeEnqueued (t : List Eff) : Bool :=
  t.any fun e => match e with
    | Eff.enqueueWrite _ _ => true
    | _ => false

/-- Whether a trace performs its mutating operation at all, through the queue
or directly. -/
def writeSubmitted (t : List Eff) : Bool :=
  t.any fun e => match e with
    | Eff.enqueueWrite _ _ => true
    | Eff.sdkDirect _ => true
    | _ => false

/-- The SDK methods that mutate on-chain state in src/gmx-actions.ts. -/
def mutatingSdkNames : List String :=
  ["sdk.orders.cancelOrders", "sdk.orders.long", "sdk.orders.short",
   "sdk.orders.createDecreaseOrder", "sdk.orders.swap"]

/-- Whether a trace invokes a mutating SDK method directly from the handler,
outside the write queue. -/
def directMutating (t : List Eff) : Bool :=
  t.any fun e => match e with
    | Eff.sdkDirect n => mutatingSdkNames.contains n
    | _ => false

/-- A run environment in which everything succeeds and the cache is present,
matching the deployed wiring of src/agent-gmx.ts line 786. -/
def envAll : Env := ⟨true, true, true, "upstream failure"⟩

/-- C1: the claim that each of the nine mutating handlers submits its
mutating SDK call through the write queue fails on the code: the
close_position handler (src/gmx-actions.ts line 1314) invokes
sdk.orders.createDecreaseOrder directly, with no
transactionQueue.enqueueWriteTransaction around it, while the eight other
mutating handlers all enqueue their SDK call and never call a mutating SDK
method directly.  Evaluated on a successful run: close_position performs a
direct mutating SDK call and enqueues nothing; each sibling enqueues and
performs no direct mutating call. -/
theorem C1_close_position_bypasses_queue :
    directMutating (runAction close_position_action envAll).trace = true ∧
    writeEnqueued (runAction close_position_action envAll).trace = false ∧
    ([cancel_orders_action, open_long_market_action, open_long_limit_action,
      open_short_market_action, open_short_limit_action, swap_tokens_action,
      set_take_profit_action, set_stop_loss_action].all fun a =>
        writeEnqueued (runAction a envAll).trace &&
        !directMutating (runAction a envAll).trace) = true := by
  decide

/-- C4 counterexample: invalidation is not performed if and only if an
enqueued write operation resolves successfully — in the close_position
handler no write is ever enqueued (the trace of a successful run contains no
enqueueWrite event), yet cache invalidation is performed on that run. -/
theorem C4_close_position_counterexample :
    writeEnqueued (runAction close_position_action envAll).trace = false ∧
    Eff.invalidate Tag.positions ∈
      (runAction close_position_action envAll).trace := by
  decide

/-- C4 amended: for every action handler, given the cache is provided (the
agent always provides it), cache invalidation of a tag is performed — before
the handler returns, since the trace is what the handler did before
returning — if and only if the handler submitted its mutating operation
(through the queue for the eight enqueuing write handlers, directly for
close_position), that operation resolved successfully, and the tag is among
the ones the handler invalidates (positions for the write handlers, plus
tokens for swap_tokens); in particular a read handler never invalidates, and
a rejected write leaves every cache tag untouched. -/
theorem C4_invalidate_iff_write_success (a : ActionD) (ha : a ∈ actions)
    (env : Env) (tag : Tag) (hc : env.hasCache = true) :
    Eff.invalidate tag ∈ (runAction a env).trace ↔
      (writeSubmitted (runAction a env).trace = true ∧ env.writeOk = true ∧
        tag ∈ a.invTags) := by
  obtain ⟨hcv, hp, hw, em⟩ := env
  dsimp only at hc
  subst hc
  fin_cases ha <;> cases hp <;> cases hw <;> cases tag <;>
    simp [runAction, guardBody, invIf, writeSubmitted,
      get_btc_eth_markets_action, get_daily_volumes_action,
      get_tokens_data_action, get_portfolio_balance_action,
      get_positions_action, get_orders_action, get_trading_history_action,
      get_synth_btc_predictions_action, get_synth_eth_predictions_action,
      get_btc_technical_analysis_action, get_eth_technical_analysis_action,
      cancel_orders_action, open_long_market_action, open_long_limit_action,
      open_short_market_action, open_short_limit_action,
      close_position_action, swap_tokens_action, set_take_profit_action,
      set_stop_loss_action,
      get_btc_eth_markets_body, get_daily_volumes_body, get_tokens_data_body,
      get_portfolio_balance_body, get_positions_body, get_orders_body,
      get_trading_history_body, get_synth_btc_predictions_body,
      get_synth_eth_predictions_body, get_btc_technical_analysis_body,
      get_eth_technical_analysis_body, cancel_orders_body,
      open_long_market_body, open_long_limit_body, open_short_market_body,
      open_short_limit_body, close_position_body, swap_tokens_body,
      set_take_profit_body, set_stop_loss_body]

/-- Witness for the amended C4: in the cancel_orders handler on a successful
run with the cache present, the positions invalidation is in the trace if and
only if the write was submitted and resolved and positions is among its
tags — and all three hold here. -/
theorem C4_invalidate_iff_write_success_witness :
    Eff.invalidate Tag.positions ∈
        (runAction cancel_orders_action envAll).trace ↔
      (writeSubmitted (runAction cancel_orders_action envAll).trace = true ∧
        envAll.writeOk = true ∧
        Tag.positions ∈ cancel_orders_action.invTags) :=
  C4_invalidate_iff_write_success cancel_orders_action (by simp [actions])
    envAll Tag.positions rfl

/-- C9: among the twenty handlers, exactly get_positions and get_orders route
their read through transactionQueue.enqueueReadAfterWrite; every other read
handler invokes its query function directly, with no barrier, in every
environment. -/
theorem C9_barrier_read_routing (a : ActionD) (ha : a ∈ actions) (env : Env) :
    (usesBarrier (runAction a env).trace = true ↔
      (a.name = "get_positions" ∨ a.name = "get_orders")) ∧
    (a.isWrite = false → a.name ≠ "get_positions" → a.name ≠ "get_orders" →
      usesDirectQuery (runAction a env).trace = true) := by
  obtain ⟨hc, hp, hw, em⟩ := env
  fin_cases ha <;> cases hc <;> cases hp <;> cases hw <;>
    simp [runAction, guardBody, invIf, usesBarrier, usesDirectQuery,
      get_btc_eth_markets_action, get_daily_volumes_action,
      get_tokens_data_action, get_portfolio_balance_action,
      get_positions_action, get_orders_action, get_trading_history_action,
      get_synth_btc_predictions_action, get_synth_eth_predictions_action,
      get_btc_technical_analysis_action, get_eth_technical_analysis_action,
      cancel_orders_action, open_long_market_action, open_long_limit_action,
      open_short_market_action, open_short_limit_action,
      close_position_action, swap_tokens_action, set_take_profit_action,
      set_stop_loss_action,
      get_btc_eth_markets_body, get_daily_volumes_body, get_tokens_data_body,
      get_portfolio_balance_body, get_positions_body, get_orders_body,
      get_trading_history_body, get_synth_btc_predictions_body,
      get_synth_eth_predictions_body, get_btc_technical_analysis_body,
      get_eth_technical_analysis_body, cancel_orders_body,
      open_long_market_body, open_long_limit_body, open_short_market_body,
      open_short_limit_body, close_position_body, swap_tokens_body,
      set_take_profit_body, set_stop_loss_body]

/-- Witness for C9: the get_positions handler on a successful run routes its
read through the barrier, and its name licenses that. -/
theorem C9_barrier_read_routing_witness :
    (usesBarrier (runAction get_positions_action envAll).trace = true ↔
      (get_positions_action.name = "get_positions" ∨
        get_positions_action.name = "get_orders")) ∧
    (get_positions_action.isWrite = false →
      get_positions_action.name ≠ "get_positions" →
      get_positions_action.name ≠ "get_orders" →
      usesDirectQuery (runAction get_positions_action envAll).trace = true) :=
  C9_barrier_read_routing get_positions_action (by simp [actions]) envAll

/-- C10: every handler returned by createGmxActions resolves — never
rejects — and when anything inside it throws, the catch block resolves it
with success false, the error message, and the fixed descriptive
failure message; otherwise it resolves with success true and no error. -/
theorem C10_handlers_catch_all (a : ActionD) (ha : a ∈ actions) (env : Env) :
    ((runAction a env).res.success = true ∧ (runAction a env).res.error = none) ∨
    ((runAction a env).res.success = false ∧
      (runAction a env).res.error = some env.errMsg ∧
      (runAction a env).res.message = a.failMsg) := by
  obtain ⟨hc, hp, hw, em⟩ := env
  fin_cases ha <;> cases hc <;> cases hp <;> cases hw <;>
    simp [runAction, guardBody, actions, invIf,
      get_btc_eth_markets_action, get_daily_volumes_action,
      get_tokens_data_action, get_portfolio_balance_action,
      get_positions_action, get_orders_action, get_trading_history_action,
      get_synth_btc_predictions_action, get_synth_eth_predictions_action,
      get_btc_technical_analysis_action, get_eth_technical_analysis_action,
      cancel_orders_action, open_long_market_action, open_long_limit_action,
      open_short_market_action, open_short_limit_action,
      close_position_action, swap_tokens_action, set_take_profit_action,
      set_stop_loss_action,
      get_btc_eth_markets_body, get_daily_volumes_body, get_tokens_data_body,
      get_portfolio_balance_body, get_positions_body, get_orders_body,
      get_trading_history_body, get_synth_btc_predictions_body,
      get_synth_eth_predictions_body, get_btc_technical_analysis_body,
      get_eth_technical_analysis_body, cancel_orders_body,
      open_long_market_body, open_long_limit_body, open_short_market_body,
      open_short_limit_body, close_position_body, swap_tokens_body,
      set_take_profit_body, set_stop_loss_body]

/-- Witness for C10: the get_btc_eth_markets handler on a successful run
resolves with success true and no error. -/
theorem C10_handlers_catch_all_witness :
    ((runAction get_btc_eth_markets_action envAll).res.success = true ∧
      (runAction get_btc_eth_markets_action envAll).res.error = none) ∨
    ((runAction get_btc_eth_markets_action envAll).res.success = false ∧
      (runAction get_btc_eth_markets_action envAll).res.error =
        some envAll.errMsg ∧
      (runAction get_btc_eth_markets_action envAll).res.message =
        get_btc_eth_markets_action.failMsg) :=
  C10_handlers_catch_all get_btc_eth_markets_action (by simp [actions]) envAll

end GA
